import Mathlib

/-!
Shallow embedding of the input-validation / rate-limiting / audit-logging
core of the 46elks MCP server (TypeScript sources under `src/`).

Modelling conventions:
* JS strings are modelled by Lean `String`; `String.length` models the JS
  `.length` (UTF-16 code units) — the two agree on all text of the Basic
  Multilingual Plane, which covers every input appearing in the claims.
* JS `number` arguments that the code treats as counts are modelled by `Int`
  (timestamps, which are `Date.now()` values, by `Nat`).
* Fallible JS code that throws is modelled with `Except String`.
-/

namespace Elks

/-- The JS `\\s` / `String.prototype.trim` whitespace set: tab, LF, VT, FF,
CR, space, NBSP, Ogham space mark, the Unicode en/em spaces, line and
paragraph separators, narrow/medium spaces, ideographic space and the BOM. -/
def jsWhitespaceChars : List Char :=
  ['\t', '\n', '\x0b', '\x0c', '\r', ' ', '\u00A0', '\u1680',
   '\u2000', '\u2001', '\u2002', '\u2003', '\u2004', '\u2005', '\u2006',
   '\u2007', '\u2008', '\u2009', '\u200A', '\u2028', '\u2029', '\u202F',
   '\u205F', '\u3000', '\uFEFF']

/-- Whether a character is JS whitespace. -/
def jsWhitespace (c : Char) : Bool := jsWhitespaceChars.contains c

/-- JS `String.prototype.trim`: drop leading and trailing whitespace. -/
def jsTrim (s : String) : String :=
  String.mk (((s.data.dropWhile jsWhitespace).reverse.dropWhile jsWhitespace).reverse)

/-- The shape `{ isValid: boolean; error?: string; info?: string; warning?: string }`
returned by the validators in `src/validation.ts`. -/
structure ValidationResult where
  isValid : Bool
  error : Option String := none
  info : Option String := none
  warning : Option String := none
deriving Repr, DecidableEq

/-- The separator class `[\s\-\(\)\.]` stripped by `validatePhoneNumber`. -/
def phoneSeparator (c : Char) : Bool :=
  jsWhitespace c || c = '-' || c = '(' || c = ')' || c = '.'

/-- `phoneNumber.replace(/[\s\-\(\)\.]/g, '')` from `validatePhoneNumber`. -/
def cleanNumberOf (phoneNumber : String) : String :=
  String.mk (phoneNumber.data.filter (fun c => !phoneSeparator c))

/-- The deny-list of placeholder numbers in `validatePhoneNumber`. -/
def blockedNumbers : List String :=
  ["+46701234567", "+46700000000", "+1234567890", "+46000000000"]

/-- `s` starts with `'+'` (models `cleanNumber.startsWith('+')`). -/
def plusFirst (s : String) : Bool :=
  match s.data with
  | [] => false
  | c :: _ => c = '+'

/-- The country-code error message of `validatePhoneNumber`. -/
def countryCodeError : String :=
  "Phone number must include country code (e.g., +46XXXXXXXXX)"

/-- `validatePhoneNumber` from `src/validation.ts`. -/
def validatePhoneNumber (phoneNumber : String) : ValidationResult :=
  let cleanNumber := cleanNumberOf phoneNumber
  if cleanNumber.length = 0 then
    { isValid := false, error := some "Phone number is required" }
  else if cleanNumber ∈ blockedNumbers then
    { isValid := false,
      error := some "Please provide a real phone number - test/placeholder numbers are not allowed" }
  else if !plusFirst cleanNumber then
    { isValid := false, error := some countryCodeError }
  else if cleanNumber.length < 8 || 16 < cleanNumber.length then
    { isValid := false, error := some "Phone number length is invalid" }
  else if !(cleanNumber.data.drop 1).all Char.isDigit then
    { isValid := false, error := some "Phone number can only contain digits after country code" }
  else if ("+46".data.isPrefixOf cleanNumber.data) &&
      !((cleanNumber.length - 3 = 9) || (cleanNumber.length - 3 = 8)) then
    { isValid := false, error := some "Swedish phone numbers should be 8-9 digits after +46" }
  else
    { isValid := true }

/-- The character class `[a-zA-Z0-9_-]` accepted by `validateMessageId`. -/
def messageIdChar (c : Char) : Bool :=
  (('a' ≤ c && c ≤ 'z') || ('A' ≤ c && c ≤ 'Z') || ('0' ≤ c && c ≤ '9')
    || c = '_' || c = '-')

/-- `validateMessageId` from `src/validation.ts`.  The argument is an
`Option String`: `none` models a `null`/`undefined` id (the JS guard
`!messageId || typeof messageId !== 'string'` rejects those and the empty
string alike). -/
def validateMessageId (messageId : Option String) : ValidationResult :=
  match messageId with
  | none => { isValid := false, error := some "Message ID is required and must be a string" }
  | some mid =>
    if mid.length = 0 then
      { isValid := false, error := some "Message ID is required and must be a string" }
    else if (jsTrim mid).length = 0 then
      { isValid := false, error := some "Message ID cannot be empty" }
    else if !((jsTrim mid).data.all messageIdChar) then
      { isValid := false,
        error := some "Message ID contains invalid characters (must be alphanumeric)" }
    else if 64 < (jsTrim mid).length then
      { isValid := false, error := some "Message ID is too long (max 64 characters)" }
    else
      { isValid := true }

/-! ## Message body validation (`validateSmsMessage`, `src/validation.ts`) -/

/-- `stripControlCharacters`: remove ASCII control characters
(`[\x00-\x08\x0B\x0C\x0E-\x1F\x7F]`), keeping tab, LF and CR. -/
def strippedControlChar (c : Char) : Bool :=
  (c ≤ '\x08') || c = '\x0b' || c = '\x0c' ||
  ('\x0e' ≤ c && c ≤ '\x1f') || c = '\x7f'

/-- `stripControlCharacters` from `src/validation.ts`. -/
def stripControlCharacters (text : String) : String :=
  String.mk (text.data.filter (fun c => !strippedControlChar c))

/-- The GSM 03.38 character class tested by the `gsmChars` regex
`^[A-Za-z0-9\s@£$¥èéùìòÇØøÅåÉæÆß\^\x7b\x7d\[~\]|€\n\r\f\\]*$`. -/
def gsmChar (c : Char) : Bool :=
  (('A' ≤ c && c ≤ 'Z') || ('a' ≤ c && c ≤ 'z') || ('0' ≤ c && c ≤ '9')
    || jsWhitespace c
    || ['@', '£', '$', '¥', 'è', 'é', 'ù', 'ì', 'ò', 'Ç', 'Ø', 'ø', 'Å', 'å',
        'É', 'æ', 'Æ', 'ß', '^', '\x7b', '\x7d', '[', '~', ']', '|', '€',
        '\n', '\r', '\x0c', '\\'].contains c)

/-- Ceiling division for `Math.ceil(a / b)` on non-negative integers. -/
def jsCeilDiv (a b : Nat) : Nat := (a + b - 1) / b

/-- The info string `${n} SMS segment(s) (GSM|Unicode encoding)`. -/
def segmentInfoString (n : Nat) (isGsm : Bool) : String :=
  (if n = 1 then "1 SMS segment (" else toString n ++ " SMS segments (")
    ++ (if isGsm then "GSM" else "Unicode") ++ " encoding)"

/-- The fixed head of the multi-part cost warning. -/
def multipartWarningHead : String := "⚠️ Multi-part SMS will cost"

/-- The multi-part cost warning string
`⚠️ Multi-part SMS will cost ${n}x normal price`. -/
def multipartCostWarning (n : Nat) : String :=
  multipartWarningHead ++ " " ++ toString n ++ "x normal price"

/-- The fixed head of the Unicode cost warning. -/
def unicodeWarningHead : String := "⚠️ Unicode SMS is more expensive"

/-- The Unicode cost warning string
`⚠️ Unicode SMS is more expensive and uses ${n} segments`. -/
def unicodeCostWarning (n : Nat) : String :=
  unicodeWarningHead ++ " and uses " ++ toString n ++ " segments"

/-- The warning string returned by `detectUrls` when a pattern matches. -/
def urlWarningString : String :=
  "⚠️ Message contains URL/link - ensure this is legitimate and not misleading"

/-- `needle` occurs in `hay` followed by at least one non-whitespace
character (models `/needle[^\s]+/.test(hay)` for a literal needle). -/
def occursThenNonSpace (needle hay : List Char) : Bool :=
  match hay with
  | [] => false
  | _ :: rest =>
    (needle.isPrefixOf hay &&
      (match hay.drop needle.length with
       | [] => false
       | c :: _ => !jsWhitespace c)) || occursThenNonSpace needle rest

/-- The TLD alternatives of the bare-domain URL pattern. -/
def urlTlds : List (List Char) :=
  [['c','o','m'], ['o','r','g'], ['n','e','t'], ['s','e'], ['i','o'],
   ['c','o'], ['u','k'], ['a','p','p'], ['d','e','v'],
   ['i','n','f','o'], ['b','i','z']]

/-- Character class `[a-zA-Z0-9-]` of the bare-domain URL pattern. -/
def domainChar (c : Char) : Bool :=
  ('a' ≤ c && c ≤ 'z') || ('A' ≤ c && c ≤ 'Z') || ('0' ≤ c && c ≤ '9') || c = '-'

/-- Models `/[a-zA-Z0-9-]+\.(com|org|...)[^\s]*/.test(hay)`: somewhere a
domain character is followed by a dot and one of the known TLDs. -/
def bareDomainMatch (hay : List Char) : Bool :=
  match hay with
  | [] => false
  | c :: rest =>
    (domainChar c &&
      (match rest with
       | '.' :: tail => urlTlds.any (fun t => t.isPrefixOf tail)
       | _ => false)) || bareDomainMatch rest

/-- Whether any of the URL patterns of `detectUrls` matches.  The regexes
carry the `i` flag, so the text is lower-cased before the literal
searches (the character classes `[^\s]` and `[a-zA-Z0-9-]` are
case-closed). -/
def urlPatternsMatch (text : String) : Bool :=
  let low := text.data.map Char.toLower
  occursThenNonSpace "http://".data low
    || occursThenNonSpace "https://".data low
    || occursThenNonSpace "www.".data low
    || bareDomainMatch low
    || occursThenNonSpace "bit.ly/".data low
    || occursThenNonSpace "tinyurl.com/".data low
    || occursThenNonSpace "t.co/".data low

/-- `detectUrls` from `src/validation.ts`. -/
def detectUrls (text : String) : Option String :=
  if urlPatternsMatch text then some urlWarningString else none

/-- The maximum single-message length of `validateSmsMessage` (160 for GSM
encoding, 70 for Unicode). -/
def maxSingleLengthFor (isGsm : Bool) : Nat := if isGsm then 160 else 70

/-- The per-segment length of `validateSmsMessage` (153 for GSM, 67 for
Unicode). -/
def segmentLengthFor (isGsm : Bool) : Nat := if isGsm then 153 else 67

/-- The hard multipart cap of `validateSmsMessage` (1530 for GSM, 670 for
Unicode — 10 segments). -/
def maxMultipartLengthFor (isGsm : Bool) : Nat := if isGsm then 1530 else 670

/-- The segment-count / info-string / cost-warning computation of
`validateSmsMessage` (its `if (trimmedMessage.length <= maxSingleLength)`
block): one segment below the single-message threshold, otherwise
`Math.ceil(length / segmentLength)` segments, a multi-part warning at
3+ segments and a (overriding) Unicode warning at 2+ non-GSM segments. -/
def smsSegWarn (isGsm : Bool) (len : Nat) : Nat × String × String :=
  if len ≤ maxSingleLengthFor isGsm then
    (1, segmentInfoString 1 isGsm, "")
  else
    let segments := jsCeilDiv len (segmentLengthFor isGsm)
    let w1 := if 3 ≤ segments then multipartCostWarning segments else ""
    let w2 := if !isGsm && 2 ≤ segments then unicodeCostWarning segments else w1
    (segments, segmentInfoString segments isGsm, w2)

/-- The final warning of `validateSmsMessage`: the URL warning
concatenates after any segment-cost warning rather than replacing it. -/
def smsWarningCombined (cost : String) (url : Option String) : String :=
  match url with
  | some u => if cost ≠ "" then cost ++ "\n" ++ u else u
  | none => cost

/-- The checks `validateSmsMessage` applies to the stripped message text:
hard length cap, segment computation and URL detection. -/
def validateSmsMessageChecked (trimmedMessage : String) : ValidationResult :=
  if maxMultipartLengthFor (trimmedMessage.data.all gsmChar) < trimmedMessage.length then
    { isValid := false,
      error := some ("Message too long (max "
        ++ toString (maxMultipartLengthFor (trimmedMessage.data.all gsmChar))
        ++ " chars). This appears to be bulk content - use dedicated bulk SMS services instead.") }
  else
    { isValid := true,
      info := some (smsSegWarn (trimmedMessage.data.all gsmChar) trimmedMessage.length).2.1,
      warning :=
        if smsWarningCombined
            (smsSegWarn (trimmedMessage.data.all gsmChar) trimmedMessage.length).2.2
            (detectUrls trimmedMessage) = "" then none
        else some (smsWarningCombined
            (smsSegWarn (trimmedMessage.data.all gsmChar) trimmedMessage.length).2.2
            (detectUrls trimmedMessage)) }

/-- `validateSmsMessage` from `src/validation.ts`: reject empty or
whitespace-only input, strip control characters, then run the length,
segment and URL checks on the stripped text. -/
def validateSmsMessage (message : String) : ValidationResult :=
  if (jsTrim message).length = 0 then
    { isValid := false, error := some "Message content is required" }
  else
    validateSmsMessageChecked (stripControlCharacters (jsTrim message))

/-! ## Sender id, limit and direction validators (`src/validation.ts`) -/

/-- `needle` occurs as a contiguous substring of `hay`
(models `hay.includes(needle)`). -/
def containsSub (needle hay : List Char) : Bool :=
  match hay with
  | [] => needle.isPrefixOf ([] : List Char)
  | _ :: rest => needle.isPrefixOf hay || containsSub needle rest

/-- The impersonation deny-list of `validateSenderId`. -/
def suspiciousSenders : List String :=
  ["BANK", "POLICE", "GOVERNMENT", "OFFICIAL", "URGENT", "WINNER",
   "PRIZE", "SECURITY", "VERIFY", "CONFIRM", "ALERT", "WARNING"]

/-- ASCII letter test for the `^[a-zA-Z]` regex. -/
def asciiLetter (c : Char) : Bool :=
  ('a' ≤ c && c ≤ 'z') || ('A' ≤ c && c ≤ 'Z')

/-- ASCII alphanumeric test for the `^[a-zA-Z0-9]+$` regex. -/
def asciiAlphanum (c : Char) : Bool := asciiLetter c || ('0' ≤ c && c ≤ '9')

/-- `validateSenderId` from `src/validation.ts` (`!senderId` makes the empty
string valid: the field is optional). -/
def validateSenderId (senderId : String) : ValidationResult :=
  if senderId.length = 0 then { isValid := true }
  else
    let trimmed := jsTrim senderId
    if plusFirst trimmed then
      let phoneValidation := validatePhoneNumber trimmed
      if !phoneValidation.isValid then phoneValidation
      else
        { isValid := true,
          warning := some "Using phone numbers as sender - ensure you can receive replies and have permission to use this number" }
    else if 11 < trimmed.length then
      { isValid := false, error := some "Alphanumeric sender ID must be 11 characters or less" }
    else if !(match trimmed.data with | [] => false | c :: _ => asciiLetter c) then
      { isValid := false,
        error := some "Alphanumeric sender ID must start with a letter (46elks requirement)" }
    else if !(trimmed.data.all asciiAlphanum) then
      { isValid := false, error := some "Sender ID can only contain letters and numbers (no spaces)" }
    else if suspiciousSenders.any
        (fun sus => containsSub sus.data (trimmed.data.map Char.toUpper)) then
      { isValid := false,
        error := some "Sender ID appears to impersonate official entities - use your own business/service name" }
    else
      { isValid := true }

/-- `validateMessageLimit` from `src/validation.ts`.  The argument is
modelled as `Int`, so the `Number.isInteger` guard is identically true. -/
def validateMessageLimit (limit : Int) : ValidationResult :=
  if limit < 1 then { isValid := false, error := some "Limit must be at least 1" }
  else if 100 < limit then { isValid := false, error := some "Limit cannot exceed 100" }
  else { isValid := true }

/-- `validateDirection` from `src/validation.ts`. -/
def validateDirection (direction : String) : ValidationResult :=
  if ["inbound", "outbound", "both"].contains direction then { isValid := true }
  else { isValid := false, error := some "Direction must be one of: inbound, outbound, both" }

/-- The `get_sms_messages` case of the dispatcher
(`src/index.ts`): `const { limit = 10 } = args; const messageLimit =
Math.min(Math.max(limit, 1), 100);` — the limit is clamped, never
rejected, and `validateMessageLimit` is not consulted. -/
def getSmsMessagesLimit (limit : Option Int) : Except String Int :=
  Except.ok (min (max (limit.getD 10) 1) 100)

/-- The `get_delivery_statistics` case of the dispatcher
(`src/index.ts`): `const { limit: statsLimit = 50 } = args;
const analysisLimit = Math.min(Math.max(statsLimit, 10), 100);`. -/
def getDeliveryStatisticsLimit (limit : Option Int) : Except String Int :=
  Except.ok (min (max (limit.getD 50) 10) 100)

/-! ## Audit logging (`src/audit.ts`) -/

/-- A JS parameter value as it appears in a `Record<string, unknown>` bag. -/
inductive JsValue where
  | str (s : String)
  | num (n : Int)
  | bool (b : Bool)
  | null
  | undef
deriving Repr, DecidableEq

/-- `maskPhoneNumber` from `src/audit.ts`:
`+46701234567 -> +467****567`; anything shorter than 8 characters (or
empty) becomes the fixed `****` token. -/
def maskPhoneNumber (phone : String) : String :=
  if phone.length < 8 then "****"
  else String.mk (phone.data.take 4) ++ "****"
    ++ String.mk (phone.data.drop (phone.data.length - 3))

/-- The `message` replacement of `sanitizeParams`:
`typeof value === 'string' ? value.length : 0`. -/
def messageLengthValue : JsValue → JsValue
  | .str s => .num (s.length : Int)
  | _ => .num 0

/-- The `to`/`from` replacement of `sanitizeParams`:
`typeof value === 'string' ? maskPhoneNumber(value) : '****'`. -/
def maskValue : JsValue → JsValue
  | .str s => .str (maskPhoneNumber s)
  | _ => .str "****"

/-- `sanitizeParams` from `src/audit.ts`: skip `undefined`/`null` values,
replace `message` by `message_length`, mask `to`/`from`, pass the rest
through. -/
def sanitizeParams : List (String × JsValue) → List (String × JsValue)
  | [] => []
  | (key, value) :: rest =>
    if value = .undef ∨ value = .null then sanitizeParams rest
    else if key = "message" then
      ("message_length", messageLengthValue value) :: sanitizeParams rest
    else if key = "to" ∨ key = "from" then
      (key, maskValue value) :: sanitizeParams rest
    else
      (key, value) :: sanitizeParams rest

/-- An `AuditEntry` from `src/audit.ts` (the ISO timestamp is replaced by
the numeric clock reading that produced it). -/
structure AuditEntry where
  timestamp : Nat
  tool : String
  params : List (String × JsValue)
  success : Bool
  error : Option String := none
  dryRun : Bool
deriving Repr, DecidableEq

/-- `auditLog` from `src/audit.ts`: build one entry with sanitized params.
The model returns the emitted entry instead of printing it. -/
def auditLog (tool : String) (params : List (String × JsValue)) (success : Bool)
    (error : Option String) (dryRun : Bool) (now : Nat) : AuditEntry :=
  { timestamp := now, tool := tool, params := sanitizeParams params,
    success := success, error := error, dryRun := dryRun }

/-! ## Rate limiting (`src/rate-limit.ts`) -/

/-- `RateLimitConfig` from `src/rate-limit.ts`. -/
structure RateLimitConfig where
  maxRequests : Nat
  windowMs : Nat
deriving Repr, DecidableEq

/-- `RateLimitResult` from `src/rate-limit.ts`. -/
structure RateLimitResult where
  allowed : Bool
  remaining : Nat
  retryAfterMs : Option Int := none
deriving Repr, DecidableEq

/-- `Math.min(...requests)` for a non-empty timestamp list (the empty case,
which in JS yields `Infinity`, is only reachable with `maxRequests = 0`
and is given the junk value 0 here; every theorem below assumes
`1 ≤ maxRequests`). -/
def listMin : List Nat → Nat
  | [] => 0
  | t :: ts => ts.foldl min t

/-- `RateLimiter.check` from `src/rate-limit.ts`: prune timestamps outside
the sliding window, deny (without recording) when the retained count has
reached the maximum, otherwise record `now` and allow.  The mutable
`this.requests` array is threaded explicitly: the function returns the
result together with the updated timestamp list. -/
def rateLimiterCheck (config : RateLimitConfig) (requests : List Nat) (now : Nat) :
    RateLimitResult × List Nat :=
  let windowStart : Int := (now : Int) - (config.windowMs : Int)
  let retained := requests.filter (fun (t : Nat) => decide (windowStart < (t : Int)))
  if config.maxRequests ≤ retained.length then
    let oldestInWindow := listMin retained
    let retryAfterMs : Int := (oldestInWindow : Int) + (config.windowMs : Int) - (now : Int)
    ({ allowed := false, remaining := 0, retryAfterMs := some (max 0 retryAfterMs) }, retained)
  else
    ({ allowed := true, remaining := config.maxRequests - (retained.length + 1),
       retryAfterMs := none }, retained ++ [now])

/-- The default `SMS_RATE_LIMIT` configuration (10 per 60 000 ms). -/
def smsRateLimitConfig : RateLimitConfig := { maxRequests := 10, windowMs := 60000 }

/-- The default `QUERY_RATE_LIMIT` configuration (60 per 60 000 ms). -/
def queryRateLimitConfig : RateLimitConfig := { maxRequests := 60, windowMs := 60000 }

/-- `getRateLimiterForTool` from `src/rate-limit.ts`, as a category choice:
`send_sms` uses the SMS limiter, every other tool the query limiter. -/
def toolUsesSmsLimiter (toolName : String) : Bool := toolName = "send_sms"

/-- The human-readable category used in rate-limit errors
(`toolName === 'send_sms' ? 'SMS sending' : 'query'`). -/
def limitType (toolName : String) : String :=
  if toolName = "send_sms" then "SMS sending" else "query"

/-- The seconds figure of `checkRateLimit`:
`result.retryAfterMs ? Math.ceil(result.retryAfterMs / 1000) : 60` —
JS truthiness makes both a missing and a zero `retryAfterMs` fall back
to the default 60. -/
def retryAfterSecOf (retryAfterMs : Option Int) : Nat :=
  match retryAfterMs with
  | none => 60
  | some r => if r = 0 then 60 else jsCeilDiv r.toNat 1000

/-- The error message thrown by `checkRateLimit` on denial. -/
def rateLimitMessage (toolName : String) (retryAfterMs : Option Int) : String :=
  "Rate limit exceeded for " ++ limitType toolName ++ ". Please wait "
    ++ toString (retryAfterSecOf retryAfterMs) ++ " seconds before trying again."

/-- `checkRateLimit` from `src/rate-limit.ts`, with the chosen limiter's
state passed and returned explicitly: run `check()` and throw (model:
return `.error`) with the human-readable message when denied. -/
def checkRateLimit (toolName : String) (config : RateLimitConfig)
    (requests : List Nat) (now : Nat) : Except String Unit × List Nat :=
  let (result, requests') := rateLimiterCheck config requests now
  if !result.allowed then
    (Except.error (rateLimitMessage toolName result.retryAfterMs), requests')
  else
    (Except.ok (), requests')

/-! ## The tool dispatcher

The repository's 0.2.0 `CallToolRequestSchema` handler ("Enhanced
`src/index.ts` with audit logging and rate limiting integration",
CHANGELOG 0.2.0) is not among the provided sources — the provided
`src/index.ts` is the superseded 0.1.0 revision without that wiring.
The handler is therefore modelled from the spec (§6), on top of the
source-level validators, rate limiter and audit logger above. -/

/-- The six exposed tool names (`src/index.ts` tool list). -/
def toolNames : List String :=
  ["send_sms", "get_sms_messages", "check_sms_status",
   "check_account_balance", "estimate_sms_cost", "get_delivery_statistics"]

/-- The argument bag of a tool invocation; `none` models an absent field.
The JS `to` and `from` fields are called `recipient` and `sender`
(`to` and `from` are Lean keywords). -/
structure ToolArgs where
  recipient : Option String := none
  message : Option String := none
  sender : Option String := none
  flashsms : Option String := none
  dry_run : Option Bool := none
  message_id : Option String := none
  limit : Option Int := none
  direction : Option String := none
deriving Repr, DecidableEq

/-- The raw parameter bag the dispatcher hands to the audit logger. -/
def ToolArgs.toParams (a : ToolArgs) : List (String × JsValue) :=
  (match a.recipient with | some s => [("to", JsValue.str s)] | none => [])
  ++ (match a.message with | some s => [("message", JsValue.str s)] | none => [])
  ++ (match a.sender with | some s => [("from", JsValue.str s)] | none => [])
  ++ (match a.flashsms with | some s => [("flashsms", JsValue.str s)] | none => [])
  ++ (match a.dry_run with | some b => [("dry_run", JsValue.bool b)] | none => [])
  ++ (match a.message_id with | some s => [("message_id", JsValue.str s)] | none => [])
  ++ (match a.limit with | some n => [("limit", JsValue.num n)] | none => [])
  ++ (match a.direction with | some s => [("direction", JsValue.str s)] | none => [])

/-- `handleValidationError` from `src/errors.ts`: throw (model: `.error`)
`Invalid ${field}: ${error}` when the validation rejected. -/
def handleValidationError (field : String) (validation : ValidationResult) :
    Except String Unit :=
  if !validation.isValid then
    match validation.error with
    | some e => Except.error ("Invalid " ++ field ++ ": " ++ e)
    | none => Except.ok ()
  else Except.ok ()

/-- Modelled from the spec: §6 — the dispatcher "runs the relevant
validators (§4.1) against raw arguments, failing fast on first rejection".
The per-tool validator sets follow what the 0.1.0 handler already wired
(`send_sms` / `estimate_sms_cost`: phone number, message, optional sender
id) plus, for `check_sms_status`, the message-id validator that §4.1/§6
name as that call's sole injection defense; `get_sms_messages`,
`get_delivery_statistics` and `check_account_balance` run no rejecting
field validator (their limit is clamped, see `getSmsMessagesLimit`). -/
def validateToolArgs (tool : String) (args : ToolArgs) : Except String Unit :=
  if tool = "send_sms" || tool = "estimate_sms_cost" then do
    handleValidationError "phone number" (validatePhoneNumber (args.recipient.getD ""))
    handleValidationError "message" (validateSmsMessage (args.message.getD ""))
    handleValidationError "sender ID" (validateSenderId (args.sender.getD ""))
  else if tool = "check_sms_status" then
    handleValidationError "message ID" (validateMessageId args.message_id)
  else
    Except.ok ()

/-- The per-process server state: the two rate-limit windows and the
emitted audit trail. -/
structure ServerState where
  smsRequests : List Nat
  queryRequests : List Nat
  auditTrail : List AuditEntry
deriving Repr, DecidableEq

/-- The rate-limit configuration a tool's category uses. -/
def configFor (tool : String) : RateLimitConfig :=
  if toolUsesSmsLimiter tool then smsRateLimitConfig else queryRateLimitConfig

/-- The rate-limit window a tool's category uses. -/
def ServerState.windowFor (st : ServerState) (tool : String) : List Nat :=
  if toolUsesSmsLimiter tool then st.smsRequests else st.queryRequests

/-- Replace the rate-limit window of a tool's category. -/
def ServerState.setWindow (st : ServerState) (tool : String) (w : List Nat) :
    ServerState :=
  if toolUsesSmsLimiter tool then { st with smsRequests := w }
  else { st with queryRequests := w }

/-- The outcome a tool invocation surfaces to the caller. -/
structure DispatchOutcome where
  ok : Bool
  text : String
  remoteCalled : Bool
deriving Repr, DecidableEq

/-- Modelled from the spec: the 0.2.0 `CallToolRequestSchema` handler of
`src/index.ts` (absent from the provided sources), per §6: resolve the
rate-limit category by name → check admission → run the relevant
validators, failing fast → invoke the remote collaborator → emit one
audit record regardless of outcome; a rejected validation or a denied
rate limit produces a failure audit record carrying the same
human-readable message, and neither reaches the remote collaborator.
The remote call is an oracle argument `remote`. -/
def dispatch (tool : String) (args : ToolArgs) (now : Nat)
    (remote : Except String String) (dryRun : Bool) (st : ServerState) :
    DispatchOutcome × ServerState :=
  let admissionPair := checkRateLimit tool (configFor tool) (st.windowFor tool) now
  let st1 := st.setWindow tool admissionPair.2
  match admissionPair.1 with
  | .error msg =>
    ({ ok := false, text := msg, remoteCalled := false },
     { st1 with auditTrail :=
        st1.auditTrail ++ [auditLog tool args.toParams false (some msg) dryRun now] })
  | .ok () =>
    match validateToolArgs tool args with
    | .error msg =>
      ({ ok := false, text := msg, remoteCalled := false },
       { st1 with auditTrail :=
          st1.auditTrail ++ [auditLog tool args.toParams false (some msg) dryRun now] })
    | .ok () =>
      match remote with
      | .ok resp =>
        ({ ok := true, text := resp, remoteCalled := true },
         { st1 with auditTrail :=
            st1.auditTrail ++ [auditLog tool args.toParams true none dryRun now] })
      | .error e =>
        ({ ok := false, text := e, remoteCalled := true },
         { st1 with auditTrail :=
            st1.auditTrail ++ [auditLog tool args.toParams false (some e) dryRun now] })

/-- Run `rateLimiterCheck` sequentially at the given times, threading the
timestamp window, collecting the per-call results. -/
def runChecks (config : RateLimitConfig) :
    List Nat → List Nat → List RateLimitResult × List Nat
  | requests, [] => ([], requests)
  | requests, t :: ts =>
    let step := rateLimiterCheck config requests t
    let rest := runChecks config step.2 ts
    (step.1 :: rest.1, rest.2)

/-! ## Theorems -/

/-- C10: for every `get_sms_messages` invocation the numeric limit is
clamped into `[1, 100]` (below 1 becomes 1, above 100 becomes 100, absent
defaults to 10) rather than rejected; an out-of-range limit never
produces a validation error (the result is always `Except.ok`), and the
clamp accepts exactly the inputs `validateMessageLimit` would reject. -/
theorem getSmsMessagesLimit_clamps :
    (∀ limit : Option Int,
      getSmsMessagesLimit limit = Except.ok (min (max (limit.getD 10) 1) 100) ∧
      1 ≤ min (max (limit.getD 10) 1) 100 ∧ min (max (limit.getD 10) 1) 100 ≤ 100) ∧
    getSmsMessagesLimit none = Except.ok 10 ∧
    ((validateMessageLimit 0).isValid = false ∧ getSmsMessagesLimit (some 0) = Except.ok 1) ∧
    ((validateMessageLimit 101).isValid = false ∧
      getSmsMessagesLimit (some 101) = Except.ok 100) := by
  refine ⟨fun limit => ⟨rfl, ?_, ?_⟩, rfl, ⟨by decide, rfl⟩, ⟨by decide, rfl⟩⟩ <;> omega

/-- C9 counterexample: the empty string does not start with `+` after
separator stripping, yet phone validation rejects it with the
"Phone number is required" message, not the country-code message. -/
theorem validatePhoneNumber_c9_counterexample :
    plusFirst (cleanNumberOf "") = false ∧
    validatePhoneNumber "" =
      { isValid := false, error := some "Phone number is required" } ∧
    ("Phone number is required" : String) ≠ countryCodeError := by decide

/-- C9 (amended): for every input whose separator-stripped form is
non-empty and does not start with `+`, phone validation rejects with the
country-code error message (the empty stripped form is instead rejected
with the "required" message). -/
theorem validatePhoneNumber_rejects_no_country_code (s : String)
    (hne : cleanNumberOf s ≠ "")
    (hplus : plusFirst (cleanNumberOf s) = false) :
    validatePhoneNumber s = { isValid := false, error := some countryCodeError } := by
  have hlen : ¬ (cleanNumberOf s).length = 0 := by
    intro h
    exact hne (by cases hs : cleanNumberOf s with
      | mk data => cases data with
        | nil => rfl
        | cons c cs => rw [hs] at h; simp [String.length] at h)
  have hblocked : cleanNumberOf s ∉ blockedNumbers := by
    intro hmem
    simp only [blockedNumbers, List.mem_cons, List.not_mem_nil, or_false] at hmem
    rcases hmem with h | h | h | h <;> rw [h] at hplus <;> exact absurd hplus (by decide)
  unfold validatePhoneNumber
  rw [if_neg hlen, if_neg hblocked, if_pos (by simp [hplus])]

/-- C9 amended witness at the input `0701234567`. -/
theorem validatePhoneNumber_rejects_no_country_code_witness :
    validatePhoneNumber "0701234567" =
      { isValid := false, error := some countryCodeError } :=
  validatePhoneNumber_rejects_no_country_code "0701234567" (by decide) (by decide)

/-- C8 counterexample: the one-character message `"\x00"` consists solely
of a stripped control character — it becomes empty after stripping — yet
`validateSmsMessage` accepts it, because the empty/whitespace-only check
runs on the raw (trimmed) input before the stripping. -/
theorem validateSmsMessage_c8_counterexample :
    stripControlCharacters (jsTrim "\x00") = "" ∧
    (validateSmsMessage "\x00").isValid = true := by decide

/-- C8 (amended): control characters are stripped after the initial
emptiness check but before the length/encoding checks: `validateSmsMessage`
rejects exactly the inputs that are empty or whitespace-only before
stripping, or whose stripped form exceeds the hard cap (1530 chars under
GSM encoding, 670 under Unicode); input that becomes empty only through
stripping is accepted. -/
theorem validateSmsMessage_reject_iff (s : String) :
    (validateSmsMessage s).isValid = false ↔
      ((jsTrim s).length = 0 ∨
        maxMultipartLengthFor ((stripControlCharacters (jsTrim s)).data.all gsmChar) <
          (stripControlCharacters (jsTrim s)).length) := by
  by_cases h1 : (jsTrim s).length = 0
  · simp [validateSmsMessage, h1]
  · by_cases h2 : maxMultipartLengthFor ((stripControlCharacters (jsTrim s)).data.all gsmChar) <
        (stripControlCharacters (jsTrim s)).length
    · simp [validateSmsMessage, validateSmsMessageChecked, h1, h2]
    · simp [validateSmsMessage, validateSmsMessageChecked, h1, h2]

/-- No sanitized parameter list retains a `message` key. -/
lemma sanitizeParams_no_message_key (ps : List (String × JsValue)) :
    ∀ kv ∈ sanitizeParams ps, kv.1 ≠ "message" := by
  induction ps with
  | nil => intro kv h; cases h
  | cons head tail ih =>
    obtain ⟨k, v⟩ := head
    intro kv h
    rw [sanitizeParams] at h
    split_ifs at h with hnil hmsg hphone
    · exact ih kv h
    · rcases List.mem_cons.mp h with rfl | h
      · simp
      · exact ih kv h
    · rcases List.mem_cons.mp h with rfl | h
      · rcases hphone with h' | h' <;> simp [h']
      · exact ih kv h
    · rcases List.mem_cons.mp h with rfl | h
      · exact hmsg
      · exact ih kv h

/-- A string-valued `message` parameter resurfaces as a `message_length`
entry carrying its character count. -/
lemma sanitizeParams_message_length (ps : List (String × JsValue)) (s : String)
    (h : ("message", JsValue.str s) ∈ ps) :
    ("message_length", JsValue.num (s.length : Int)) ∈ sanitizeParams ps := by
  induction ps with
  | nil => cases h
  | cons head tail ih =>
    obtain ⟨k, v⟩ := head
    rcases List.mem_cons.mp h with heq | h
    · obtain ⟨rfl, rfl⟩ := Prod.mk.injEq .. ▸ heq
      rw [sanitizeParams, if_neg (by simp), if_pos rfl]
      exact List.mem_cons_self _ _
    · rw [sanitizeParams]
      split_ifs <;> first
        | exact ih h
        | exact List.mem_cons_of_mem _ (ih h)

/-- A string-valued `to` or `from` parameter resurfaces masked by
`maskPhoneNumber`. -/
lemma sanitizeParams_masks (ps : List (String × JsValue)) (k : String) (s : String)
    (hk : k = "to" ∨ k = "from") (h : (k, JsValue.str s) ∈ ps) :
    (k, JsValue.str (maskPhoneNumber s)) ∈ sanitizeParams ps := by
  induction ps with
  | nil => cases h
  | cons head tail ih =>
    obtain ⟨k', v⟩ := head
    rcases List.mem_cons.mp h with heq | h
    · obtain ⟨rfl, rfl⟩ := Prod.mk.injEq .. ▸ heq
      rw [sanitizeParams, if_neg (by simp),
        if_neg (by rcases hk with rfl | rfl <;> decide), if_pos hk]
      exact List.mem_cons_self _ _
    · rw [sanitizeParams]
      split_ifs <;> first
        | exact ih h
        | exact List.mem_cons_of_mem _ (ih h)

/-- Every `to`/`from` entry of a sanitized parameter list is the
`maskPhoneNumber` image of some string (a non-string raw value yields the
fixed token, which equals `maskPhoneNumber ""`). -/
lemma sanitizeParams_phone_keys_masked (ps : List (String × JsValue)) :
    ∀ kv ∈ sanitizeParams ps, (kv.1 = "to" ∨ kv.1 = "from") →
      ∃ raw : String, kv.2 = JsValue.str (maskPhoneNumber raw) := by
  induction ps with
  | nil => intro kv h; cases h
  | cons head tail ih =>
    obtain ⟨k, v⟩ := head
    intro kv h hk
    rw [sanitizeParams] at h
    split_ifs at h with hnil hmsg hphone
    · exact ih kv h hk
    · rcases List.mem_cons.mp h with rfl | h
      · rcases hk with h' | h' <;> exact absurd h' (by simp)
      · exact ih kv h hk
    · rcases List.mem_cons.mp h with rfl | h
      · cases v with
        | str s => exact ⟨s, rfl⟩
        | num n => exact ⟨"", rfl⟩
        | bool b => exact ⟨"", rfl⟩
        | null => exact ⟨"", rfl⟩
        | undef => exact ⟨"", rfl⟩
      · exact ih kv h hk
    · rcases List.mem_cons.mp h with rfl | h
      · exact absurd hk hphone
      · exact ih kv h hk

/-- C5: the audit logger's parameter sanitizer drops every raw message
body (no `message` key survives; a string message is replaced by a
`message_length` entry holding its character count) and masks every
`to`/`from` value — as first-4 + `****` + last-3 when the raw length is
at least 8 and as the fixed `****` token otherwise (including the empty
string); in particular `+46701234567` masks to `+467****567`. -/
theorem sanitizeParams_redacts (ps : List (String × JsValue)) :
    (∀ kv ∈ sanitizeParams ps, kv.1 ≠ "message") ∧
    (∀ s : String, ("message", JsValue.str s) ∈ ps →
      ("message_length", JsValue.num (s.length : Int)) ∈ sanitizeParams ps) ∧
    (∀ (k : String) (s : String), (k = "to" ∨ k = "from") →
      (k, JsValue.str s) ∈ ps →
      (k, JsValue.str (maskPhoneNumber s)) ∈ sanitizeParams ps) ∧
    (∀ kv ∈ sanitizeParams ps, (kv.1 = "to" ∨ kv.1 = "from") →
      ∃ raw : String, kv.2 = JsValue.str (maskPhoneNumber raw)) ∧
    (∀ s : String, maskPhoneNumber s =
      if 8 ≤ s.length then
        String.mk (s.data.take 4) ++ "****" ++ String.mk (s.data.drop (s.data.length - 3))
      else "****") ∧
    maskPhoneNumber "+46701234567" = "+467****567" ∧
    maskPhoneNumber "" = "****" ∧ maskPhoneNumber "+1234" = "****" := by
  refine ⟨sanitizeParams_no_message_key ps, fun s => sanitizeParams_message_length ps s,
    fun k s hk => sanitizeParams_masks ps k s hk, sanitizeParams_phone_keys_masked ps,
    fun s => ?_, by decide, by decide, by decide⟩
  unfold maskPhoneNumber
  rcases Nat.lt_or_ge s.length 8 with h | h
  · rw [if_pos h, if_neg (by omega)]
  · rw [if_neg (by omega), if_pos h]

/-- C5 witness: the sanitizer applied to a concrete `send_sms` parameter
bag. -/
theorem sanitizeParams_redacts_witness :
    (("message", JsValue.str "This is a secret message") ∈
        ([("to", JsValue.str "+46701234567"),
          ("message", JsValue.str "This is a secret message")] : List (String × JsValue)) ∧
      ("message_length", JsValue.num 24) ∈
        sanitizeParams [("to", JsValue.str "+46701234567"),
          ("message", JsValue.str "This is a secret message")]) ∧
    ("to", JsValue.str (maskPhoneNumber "+46701234567")) ∈
      sanitizeParams [("to", JsValue.str "+46701234567"),
        ("message", JsValue.str "This is a secret message")] ∧
    maskPhoneNumber "+46701234567" = "+467****567" := by
  have h := sanitizeParams_redacts
    [("to", JsValue.str "+46701234567"),
     ("message", JsValue.str "This is a secret message")]
  exact ⟨⟨by decide, h.2.1 "This is a secret message" (by decide)⟩,
    h.2.2.1 "to" "+46701234567" (Or.inl rfl) (by decide), h.2.2.2.2.2.1⟩

/-- `listMin` of a non-empty list is one of its elements. -/
lemma listMin_mem : ∀ (l : List Nat), l ≠ [] → listMin l ∈ l := by
  have aux : ∀ (ts : List Nat) (t : Nat), ts.foldl min t ∈ t :: ts := by
    intro ts
    induction ts with
    | nil => intro t; exact List.mem_singleton.mpr rfl
    | cons u us ih =>
      intro t
      have h := ih (min t u)
      rcases List.mem_cons.mp h with h | h
      · rcases Nat.le_total t u with hle | hle
        · rw [List.foldl_cons, h, Nat.min_eq_left hle]; exact List.mem_cons_self _ _
        · rw [List.foldl_cons, h, Nat.min_eq_right hle]
          exact List.mem_cons_of_mem _ (List.mem_cons_self _ _)
      · exact List.mem_cons_of_mem _ (List.mem_cons_of_mem _ h)
  intro l hl
  cases l with
  | nil => exact absurd rfl hl
  | cons t ts => exact aux ts t

/-- C6: whenever a rate-limit check is denied (under any configuration
with a positive maximum), the caller-facing error message names the
category in human terms (`SMS sending` for `send_sms`, `query` for every
other tool) and states a wait of exactly `ceil(retryAfterMs / 1000)`
whole seconds; some timestamp is retained in the window and
`retryAfterMs ≥ 1`, so the defensive default of 60 seconds (reserved for
a missing or zero `retryAfterMs`, i.e. for an empty retained window) is
not used. -/
theorem checkRateLimit_denied_message (toolName : String) (config : RateLimitConfig)
    (requests : List Nat) (now : Nat)
    (hmax : 1 ≤ config.maxRequests)
    (hden : (rateLimiterCheck config requests now).1.allowed = false) :
    ∃ r : Int,
      (rateLimiterCheck config requests now).1.retryAfterMs = some r ∧ 1 ≤ r ∧
      (checkRateLimit toolName config requests now).1 =
        Except.error ("Rate limit exceeded for "
          ++ (if toolName = "send_sms" then "SMS sending" else "query")
          ++ ". Please wait " ++ toString (jsCeilDiv r.toNat 1000)
          ++ " seconds before trying again.") ∧
      requests.filter
        (fun (t : Nat) => decide (((now : Int) - (config.windowMs : Int)) < (t : Int))) ≠ [] := by
  set retained :=
    requests.filter
      (fun (t : Nat) => decide (((now : Int) - (config.windowMs : Int)) < (t : Int))) with hret
  by_cases hful : config.maxRequests ≤ retained.length
  · have hne : retained ≠ [] := by
      intro h
      rw [h] at hful
      simp at hful
      omega
    have hmem : listMin retained ∈ retained := listMin_mem retained hne
    have hgt : ((now : Int) - (config.windowMs : Int)) < (listMin retained : Int) := by
      have := List.of_mem_filter hmem
      exact of_decide_eq_true this
    have hr1 : (1 : Int) ≤ (listMin retained : Int) + (config.windowMs : Int) - (now : Int) := by
      omega
    have hstep : rateLimiterCheck config requests now =
        ({ allowed := false, remaining := 0,
           retryAfterMs :=
             some ((listMin retained : Int) + (config.windowMs : Int) - (now : Int)) },
         retained) := by
      rw [rateLimiterCheck]
      simp only [← hret]
      rw [if_pos hful, max_eq_right (by omega)]
    refine ⟨(listMin retained : Int) + (config.windowMs : Int) - (now : Int),
      by rw [hstep], hr1, ?_, hne⟩
    rw [checkRateLimit, hstep]
    simp only [rateLimitMessage, retryAfterSecOf, limitType, Bool.not_false, if_true]
    rw [if_neg (show ¬((listMin retained : Int) + (config.windowMs : Int) - (now : Int) = 0)
      by omega)]
  · exfalso
    rw [rateLimiterCheck] at hden
    simp only [← hret, if_neg hful] at hden
    simp at hden

/-- C6 witness: the SMS limiter with a full window of ten timestamps,
checked at time 500, denies with a 60-second wait
(`retryAfterMs = 59500`, `ceil(59500/1000) = 60`). -/
theorem checkRateLimit_denied_message_witness :
    ∃ r : Int,
      (rateLimiterCheck smsRateLimitConfig [0, 1, 2, 3, 4, 5, 6, 7, 8, 9] 500).1.retryAfterMs =
        some r ∧ 1 ≤ r ∧
      (checkRateLimit "send_sms" smsRateLimitConfig [0, 1, 2, 3, 4, 5, 6, 7, 8, 9] 500).1 =
        Except.error ("Rate limit exceeded for "
          ++ (if ("send_sms" : String) = "send_sms" then "SMS sending" else "query")
          ++ ". Please wait " ++ toString (jsCeilDiv r.toNat 1000)
          ++ " seconds before trying again.") ∧
      List.filter
        (fun (t : Nat) => decide (((500 : Nat) : Int) - ((smsRateLimitConfig.windowMs : Nat) : Int) < (t : Int)))
        [0, 1, 2, 3, 4, 5, 6, 7, 8, 9] ≠ [] :=
  checkRateLimit_denied_message "send_sms" smsRateLimitConfig
    [0, 1, 2, 3, 4, 5, 6, 7, 8, 9] 500 (by decide) (by decide)

/-- `runChecks` over an appended time list splits into two runs with the
window threaded through. -/
lemma runChecks_append (config : RateLimitConfig) (as bs win : List Nat) :
    runChecks config win (as ++ bs) =
      ((runChecks config win as).1 ++ (runChecks config (runChecks config win as).2 bs).1,
       (runChecks config (runChecks config win as).2 bs).2) := by
  induction as generalizing win with
  | nil => simp [runChecks]
  | cons a as ih => simp [runChecks, ih]

/-- The result list of a run of all-admitted checks: starting from a
window of `k` timestamps with maximum `m`, the `n` successive allowed
results with `remaining` counting down. -/
def expectedAllowed (m : Nat) : Nat → Nat → List RateLimitResult
  | _, 0 => []
  | k, n + 1 =>
    { allowed := true, remaining := m - (k + 1), retryAfterMs := none } ::
      expectedAllowed m (k + 1) n

/-- While all timestamps (retained and incoming) fall within one window
duration above `L` and the window has room, every sequential check is
allowed, `remaining` counts down by one each time, and the window grows
by exactly the checked timestamps. -/
lemma runChecks_within_window (config : RateLimitConfig) (L : Nat) :
    ∀ (ts win : List Nat),
      (∀ x ∈ win, L ≤ x ∧ x < L + config.windowMs) →
      (∀ x ∈ ts, L ≤ x ∧ x < L + config.windowMs) →
      win.length + ts.length ≤ config.maxRequests →
      runChecks config win ts =
        (expectedAllowed config.maxRequests win.length ts.length, win ++ ts) := by
  intro ts
  induction ts with
  | nil => intro win _ _ _; simp [runChecks, expectedAllowed]
  | cons t ts ih =>
    intro win hwin hts hlen
    have ht := hts t (List.mem_cons_self _ _)
    have hfilter :
        win.filter (fun (x : Nat) =>
          decide (((t : Nat) : Int) - (config.windowMs : Int) < (x : Int))) = win := by
      apply List.filter_eq_self.mpr
      intro x hx
      have hxb := hwin x hx
      exact decide_eq_true (by omega)
    have hroom : ¬ config.maxRequests ≤ win.length := by
      simp only [List.length_cons] at hlen
      omega
    have hstep : rateLimiterCheck config win t =
        ({ allowed := true, remaining := config.maxRequests - (win.length + 1),
           retryAfterMs := none }, win ++ [t]) := by
      rw [rateLimiterCheck]
      simp only [hfilter]
      rw [if_neg hroom]
    have hih := ih (win ++ [t])
      (by
        intro x hx
        rcases List.mem_append.mp hx with hx | hx
        · exact hwin x hx
        · rw [List.mem_singleton.mp hx]; exact ht)
      (fun x hx => hts x (List.mem_cons_of_mem _ hx))
      (by simp only [List.length_append, List.length_singleton, List.length_cons,
            List.length_nil] at hlen ⊢; omega)
    rw [runChecks]
    simp only [hstep, hih, List.length_cons, List.length_append, List.length_singleton,
      List.length_nil, expectedAllowed, List.append_assoc, List.singleton_append]

/-- C4: with the SMS limiter's `maxRequests = 10` and eleven check times
all falling within one window duration, the first ten sequential checks
are allowed with strictly decreasing `remaining` (9 down to 0), the
eleventh is denied with `remaining = 0` and `retryAfterMs ≥ 1 > 0`, and
the denied check appends no timestamp: the final window is exactly the
ten admitted timestamps. -/
theorem rateLimiter_ten_allowed_then_denied (L : Nat) (ts : List Nat)
    (hlen : ts.length = 11)
    (hwin : ∀ x ∈ ts, L ≤ x ∧ x < L + 60000) :
    ∃ r : Int, 1 ≤ r ∧
      runChecks smsRateLimitConfig [] ts =
        ((List.range 10).map (fun i =>
            { allowed := true, remaining := 9 - i, retryAfterMs := none })
          ++ [{ allowed := false, remaining := 0, retryAfterMs := some r }],
         ts.take 10) := by
  obtain ⟨tl, hdrop⟩ : ∃ a, ts.drop 10 = [a] :=
    List.length_eq_one.mp (by rw [List.length_drop, hlen])
  have hsplit : ts.take 10 ++ [tl] = ts := by rw [← hdrop]; exact List.take_append_drop _ _
  have htake : (ts.take 10).length = 10 := by rw [List.length_take, hlen]; omega
  have htakemem : ∀ x ∈ ts.take 10, L ≤ x ∧ x < L + 60000 :=
    fun x hx => hwin x (List.take_subset _ _ hx)
  have htl : L ≤ tl ∧ tl < L + 60000 :=
    hwin tl (List.mem_of_mem_drop (by rw [hdrop]; exact List.mem_singleton.mpr rfl))
  have hfirst := runChecks_within_window smsRateLimitConfig L (ts.take 10) []
    (by intro x hx; cases hx) htakemem
    (by rw [htake]; simp [smsRateLimitConfig])
  have hfilter :
      (ts.take 10).filter (fun (x : Nat) =>
        decide (((tl : Nat) : Int) - ((60000 : Nat) : Int) < (x : Int))) = ts.take 10 := by
    apply List.filter_eq_self.mpr
    intro x hx
    have hxb := htakemem x hx
    exact decide_eq_true (by push_cast; omega)
  have hne : ts.take 10 ≠ [] := by
    intro h
    rw [h] at htake
    simp at htake
  have hminmem := listMin_mem _ hne
  have hminb := htakemem _ hminmem
  have hr1 : (1 : Int) ≤ (listMin (ts.take 10) : Int) + ((60000 : Nat) : Int) - (tl : Int) := by
    have := htl.2
    have := hminb.1
    omega
  have hdenied : rateLimiterCheck smsRateLimitConfig (ts.take 10) tl =
      ({ allowed := false, remaining := 0,
         retryAfterMs :=
           some ((listMin (ts.take 10) : Int) + ((60000 : Nat) : Int) - (tl : Int)) },
       ts.take 10) := by
    rw [rateLimiterCheck]
    simp only [smsRateLimitConfig] at hfilter ⊢
    rw [hfilter, if_pos (by rw [htake])]
    rw [max_eq_right (by omega)]
  refine ⟨(listMin (ts.take 10) : Int) + ((60000 : Nat) : Int) - (tl : Int), hr1, ?_⟩
  conv_lhs => rw [← hsplit]
  rw [runChecks_append, hfirst]
  simp only [List.nil_append, runChecks, hdenied, List.length_nil, htake]
  rw [Prod.mk.injEq]
  constructor
  · congr 1
  · rfl

/-- C4 witness: eleven checks at time 0. -/
theorem rateLimiter_ten_allowed_then_denied_witness :
    ∃ r : Int, 1 ≤ r ∧
      runChecks smsRateLimitConfig [] [0, 0, 0, 0, 0, 0, 0, 0, 0, 0, 0] =
        ((List.range 10).map (fun i =>
            { allowed := true, remaining := 9 - i, retryAfterMs := none })
          ++ [{ allowed := false, remaining := 0, retryAfterMs := some r }],
         ([0, 0, 0, 0, 0, 0, 0, 0, 0, 0, 0] : List Nat).take 10) :=
  rateLimiter_ten_allowed_then_denied 0 [0, 0, 0, 0, 0, 0, 0, 0, 0, 0, 0]
    (by decide) (by intro x hx; simp at hx; omega)

/-- Setting a tool's window leaves the audit trail unchanged. -/
lemma auditTrail_setWindow (st : ServerState) (tool : String) (w : List Nat) :
    (st.setWindow tool w).auditTrail = st.auditTrail := by
  unfold ServerState.setWindow
  split_ifs <;> rfl

/-- Reading back the window just set for a tool's category. -/
lemma windowFor_setWindow (st : ServerState) (tool : String) (w : List Nat) :
    (st.setWindow tool w).windowFor tool = w := by
  unfold ServerState.setWindow ServerState.windowFor
  split_ifs with h <;> simp

/-- `windowFor` ignores the audit trail. -/
lemma windowFor_mk (sms query : List Nat) (a : List AuditEntry) (tool : String) :
    (ServerState.mk sms query a).windowFor tool =
      if toolUsesSmsLimiter tool then sms else query := rfl

/-- An admitted check records `now` in the returned window. -/
lemma rateLimiterCheck_allowed_mem (config : RateLimitConfig) (requests : List Nat)
    (now : Nat) (h : (rateLimiterCheck config requests now).1.allowed = true) :
    now ∈ (rateLimiterCheck config requests now).2 := by
  simp only [rateLimiterCheck] at h ⊢
  split_ifs at h ⊢ with hc
  all_goals simp_all

/-- `checkRateLimit` on an admitted check returns `.ok` with the updated
window. -/
lemma checkRateLimit_allowed (toolName : String) (config : RateLimitConfig)
    (requests : List Nat) (now : Nat)
    (h : (rateLimiterCheck config requests now).1.allowed = true) :
    checkRateLimit toolName config requests now =
      (Except.ok (), (rateLimiterCheck config requests now).2) := by
  rcases hE : rateLimiterCheck config requests now with ⟨res, reqs⟩
  rw [hE] at h
  have h' : res.allowed = true := h
  rw [checkRateLimit, hE]
  simp [h']

/-- `checkRateLimit` on a denied check returns the rate-limit error with
the pruned (unchanged) window. -/
lemma checkRateLimit_denied (toolName : String) (config : RateLimitConfig)
    (requests : List Nat) (now : Nat)
    (h : (rateLimiterCheck config requests now).1.allowed = false) :
    checkRateLimit toolName config requests now =
      (Except.error (rateLimitMessage toolName
          (rateLimiterCheck config requests now).1.retryAfterMs),
        (rateLimiterCheck config requests now).2) := by
  rcases hE : rateLimiterCheck config requests now with ⟨res, reqs⟩
  rw [hE] at h
  have h' : res.allowed = false := h
  rw [checkRateLimit, hE]
  simp [h']

/-- C1 (spec-modelled dispatcher): admission is checked — and, when
allowed, one unit of the tool category's budget is consumed — before any
field validator runs; consequently an invocation whose arguments fail
validation surfaces the validation error, never reaches the remote API,
and its admission timestamp `now` is already recorded in the category's
rate-limit window. -/
theorem dispatch_admission_before_validation
    (tool : String) (args : ToolArgs) (now : Nat) (remote : Except String String)
    (dryRun : Bool) (st : ServerState) (err : String)
    (htool : tool ∈ toolNames)
    (hval : validateToolArgs tool args = Except.error err)
    (hadm : (rateLimiterCheck (configFor tool) (st.windowFor tool) now).1.allowed = true) :
    (dispatch tool args now remote dryRun st).1 =
      { ok := false, text := err, remoteCalled := false } ∧
    now ∈ ((dispatch tool args now remote dryRun st).2.windowFor tool) := by
  have hch := checkRateLimit_allowed tool (configFor tool) (st.windowFor tool) now hadm
  have hmem := rateLimiterCheck_allowed_mem (configFor tool) (st.windowFor tool) now hadm
  rw [dispatch.eq_def]
  simp only [hch, hval]
  refine ⟨by simp, ?_⟩
  have hws : ∀ (st' : ServerState) (a : List AuditEntry),
      (ServerState.mk st'.smsRequests st'.queryRequests a).windowFor tool
        = st'.windowFor tool := fun _ _ => rfl
  rw [hws, windowFor_setWindow]
  exact hmem

/-- C1 witness: a `send_sms` call whose recipient fails phone validation,
admitted into an empty window at time 0. -/
theorem dispatch_admission_before_validation_witness :
    (dispatch "send_sms" { recipient := some "abc", message := some "hi" } 0
        (Except.ok "sent") false ⟨[], [], []⟩).1 =
      { ok := false,
        text := "Invalid phone number: " ++ countryCodeError,
        remoteCalled := false } ∧
    0 ∈ ((dispatch "send_sms" { recipient := some "abc", message := some "hi" } 0
        (Except.ok "sent") false ⟨[], [], []⟩).2.windowFor "send_sms") :=
  dispatch_admission_before_validation "send_sms"
    { recipient := some "abc", message := some "hi" } 0 (Except.ok "sent") false
    ⟨[], [], []⟩ ("Invalid phone number: " ++ countryCodeError)
    (by decide) (by rfl) (by decide)

/-- C2 (spec-modelled dispatcher): every invocation emits exactly one
audit record regardless of outcome; every failed invocation's record has
`success = false` and carries the same human-readable error message the
caller sees; and an invocation denied by the rate limiter or rejected by
a validator never reaches the remote API. -/
theorem dispatch_single_audit (tool : String) (args : ToolArgs) (now : Nat)
    (remote : Except String String) (dryRun : Bool) (st : ServerState)
    (htool : tool ∈ toolNames) :
    ((dispatch tool args now remote dryRun st).2.auditTrail.length
        = st.auditTrail.length + 1) ∧
    ((dispatch tool args now remote dryRun st).1.ok = false →
      (dispatch tool args now remote dryRun st).2.auditTrail.getLast? =
        some (auditLog tool args.toParams false
          (some (dispatch tool args now remote dryRun st).1.text) dryRun now)) ∧
    (((rateLimiterCheck (configFor tool) (st.windowFor tool) now).1.allowed = false
        ∨ validateToolArgs tool args ≠ Except.ok ()) →
      (dispatch tool args now remote dryRun st).1.remoteCalled = false) := by
  by_cases hadm :
      (rateLimiterCheck (configFor tool) (st.windowFor tool) now).1.allowed = true
  · have hch := checkRateLimit_allowed tool (configFor tool) (st.windowFor tool) now hadm
    rcases hV : validateToolArgs tool args with err | u
    · rw [dispatch.eq_def]
      simp only [hch, hV, auditTrail_setWindow]
      exact ⟨by simp, fun _ => by simp [List.getLast?_concat], fun _ => by simp⟩
    · cases u
      cases remote with
      | ok resp =>
        rw [dispatch.eq_def]
        simp only [hch, hV, auditTrail_setWindow]
        refine ⟨by simp, fun h => by simp at h, fun h => ?_⟩
        rcases h with h | h
        · rw [hadm] at h; cases h
        · exact absurd rfl h
      | error e =>
        rw [dispatch.eq_def]
        simp only [hch, hV, auditTrail_setWindow]
        refine ⟨by simp, fun _ => by simp [List.getLast?_concat], fun h => ?_⟩
        rcases h with h | h
        · rw [hadm] at h; cases h
        · exact absurd rfl h
  · rw [Bool.not_eq_true] at hadm
    have hch := checkRateLimit_denied tool (configFor tool) (st.windowFor tool) now hadm
    rw [dispatch.eq_def]
    simp only [hch, auditTrail_setWindow]
    exact ⟨by simp, fun _ => by simp [List.getLast?_concat], fun _ => by simp⟩

/-- C2 witness: a rate-limited `send_sms` call against a full window. -/
theorem dispatch_single_audit_witness :
    ((dispatch "send_sms" { recipient := some "+15551234567", message := some "hi" } 5
        (Except.ok "sent") false
        ⟨[0, 1, 2, 3, 4, 5, 6, 7, 8, 9], [], []⟩).2.auditTrail.length
      = (⟨[0, 1, 2, 3, 4, 5, 6, 7, 8, 9], [], []⟩ : ServerState).auditTrail.length + 1) ∧
    ((dispatch "send_sms" { recipient := some "+15551234567", message := some "hi" } 5
        (Except.ok "sent") false
        ⟨[0, 1, 2, 3, 4, 5, 6, 7, 8, 9], [], []⟩).1.ok = false →
      (dispatch "send_sms" { recipient := some "+15551234567", message := some "hi" } 5
        (Except.ok "sent") false
        ⟨[0, 1, 2, 3, 4, 5, 6, 7, 8, 9], [], []⟩).2.auditTrail.getLast? =
        some (auditLog "send_sms"
          (ToolArgs.toParams { recipient := some "+15551234567", message := some "hi" })
          false
          (some (dispatch "send_sms"
            { recipient := some "+15551234567", message := some "hi" } 5
            (Except.ok "sent") false
            ⟨[0, 1, 2, 3, 4, 5, 6, 7, 8, 9], [], []⟩).1.text) false 5)) ∧
    (((rateLimiterCheck (configFor "send_sms")
          ((⟨[0, 1, 2, 3, 4, 5, 6, 7, 8, 9], [], []⟩ : ServerState).windowFor "send_sms")
          5).1.allowed = false
        ∨ validateToolArgs "send_sms"
            { recipient := some "+15551234567", message := some "hi" } ≠ Except.ok ()) →
      (dispatch "send_sms" { recipient := some "+15551234567", message := some "hi" } 5
        (Except.ok "sent") false
        ⟨[0, 1, 2, 3, 4, 5, 6, 7, 8, 9], [], []⟩).1.remoteCalled = false) :=
  dispatch_single_audit "send_sms"
    { recipient := some "+15551234567", message := some "hi" } 5 (Except.ok "sent") false
    ⟨[0, 1, 2, 3, 4, 5, 6, 7, 8, 9], [], []⟩ (by decide)

/-- An invalid message id always carries an error message. -/
lemma validateMessageId_invalid_error (mid : Option String)
    (h : (validateMessageId mid).isValid = false) :
    ∃ e, (validateMessageId mid).error = some e := by
  rcases mid with _ | s
  · exact ⟨_, rfl⟩
  · rw [validateMessageId] at h ⊢
    split_ifs at h ⊢ <;> exact ⟨_, rfl⟩

/-- C3 counterexample: the id `" abc"` contains a space — a character
outside `[A-Za-z0-9_-]` — yet `validateMessageId` trims before checking
and accepts it, and the (spec-modelled) `check_sms_status` dispatch
reaches the remote call. -/
theorem checkSmsStatus_c3_counterexample :
    (' ' ∈ (" abc" : String).data ∧ messageIdChar ' ' = false) ∧
    (validateMessageId (some " abc")).isValid = true ∧
    (dispatch "check_sms_status" { message_id := some " abc" } 0 (Except.ok "ok") false
      ⟨[], [], []⟩).1.remoteCalled = true := by decide

/-- C3 (amended): a `check_sms_status` id that is null/undefined, or whose
trimmed form is empty, contains a character outside `[A-Za-z0-9_-]`, or is
longer than 64 characters, is rejected by `validateMessageId`, and the
dispatch never calls the remote API (whether admission was granted or
denied). -/
theorem checkSmsStatus_rejects_bad_id (mid : Option String) (now : Nat)
    (remote : Except String String) (dryRun : Bool) (st : ServerState)
    (hbad : mid = none ∨ ∃ s, mid = some s ∧
      ((jsTrim s).length = 0 ∨ ¬((jsTrim s).data.all messageIdChar = true) ∨
        64 < (jsTrim s).length)) :
    (validateMessageId mid).isValid = false ∧
    (dispatch "check_sms_status" { message_id := mid } now remote dryRun st).1.remoteCalled
      = false := by
  have hinv : (validateMessageId mid).isValid = false := by
    rcases hbad with rfl | ⟨s, rfl, hs⟩
    · rfl
    · rw [validateMessageId]
      split_ifs with h1 h2 h3 h4
      · rfl
      · rfl
      · rfl
      · rfl
      · exfalso
        rcases hs with hs | hs | hs
        · exact h2 hs
        · cases hx : (jsTrim s).data.all messageIdChar
          · exact h3 (by simp [hx])
          · exact hs hx
        · exact h4 hs
  obtain ⟨e, he⟩ := validateMessageId_invalid_error mid hinv
  have hv : validateToolArgs "check_sms_status" { message_id := mid } =
      Except.error ("Invalid message ID: " ++ e) := by
    rw [validateToolArgs]
    rw [if_neg (by decide), if_pos rfl]
    rw [handleValidationError, if_pos (by simp [hinv]), he]
    rfl
  refine ⟨hinv, ?_⟩
  by_cases hadm : (rateLimiterCheck (configFor "check_sms_status")
      (st.windowFor "check_sms_status") now).1.allowed = true
  · have hch := checkRateLimit_allowed "check_sms_status" (configFor "check_sms_status")
      (st.windowFor "check_sms_status") now hadm
    rw [dispatch.eq_def]
    simp [hch, hv]
  · rw [Bool.not_eq_true] at hadm
    have hch := checkRateLimit_denied "check_sms_status" (configFor "check_sms_status")
      (st.windowFor "check_sms_status") now hadm
    rw [dispatch.eq_def]
    simp [hch]

/-- C3 amended witness at a path-traversal id. -/
theorem checkSmsStatus_rejects_bad_id_witness :
    (validateMessageId (some "msg/../../../etc/passwd")).isValid = false ∧
    (dispatch "check_sms_status" { message_id := some "msg/../../../etc/passwd" } 0
      (Except.ok "ok") false ⟨[], [], []⟩).1.remoteCalled = false :=
  checkSmsStatus_rejects_bad_id (some "msg/../../../etc/passwd") 0 (Except.ok "ok") false
    ⟨[], [], []⟩
    (Or.inr ⟨"msg/../../../etc/passwd", rfl, Or.inr (Or.inl (by decide))⟩)

/-! ## C7 infrastructure -/

/-- Per the claim (and spec §4.1): the segment-count formula —
`ceil(length/segmentLength)` when the length exceeds the single-message
threshold, else 1. -/
def claimedSegments (t : String) : Nat :=
  if t.length ≤ maxSingleLengthFor (t.data.all gsmChar) then 1
  else jsCeilDiv t.length (segmentLengthFor (t.data.all gsmChar))

/-- A cost warning is attached to a validation result: its warning field
starts with the fixed head of either the multi-part or the Unicode cost
warning. -/
def hasCostWarning (r : ValidationResult) : Bool :=
  match r.warning with
  | none => false
  | some w =>
    multipartWarningHead.data.isPrefixOf w.data
      || unicodeWarningHead.data.isPrefixOf w.data

/-- A list is a `isPrefixOf` any extension of itself. -/
lemma isPrefixOf_append (a b : List Char) : a.isPrefixOf (a ++ b) = true := by
  induction a with
  | nil => simp [List.isPrefixOf]
  | cons c cs ih => simp [List.isPrefixOf]

/-- `String.append` acts as `List.append` on the character data. -/
lemma string_data_append (a b : String) : (a ++ b).data = a.data ++ b.data := rfl

/-- The multi-part warning head is a prefix of any extension of the
multi-part cost warning. -/
lemma multipartHeadLeads (n : Nat) (extra : List Char) :
    multipartWarningHead.data.isPrefixOf ((multipartCostWarning n).data ++ extra) = true := by
  have h : (multipartCostWarning n).data ++ extra =
      multipartWarningHead.data
        ++ ((" " ++ toString n ++ "x normal price").data ++ extra) := by
    simp [multipartCostWarning, string_data_append, List.append_assoc]
  rw [h]
  exact isPrefixOf_append _ _

/-- The Unicode warning head is a prefix of any extension of the Unicode
cost warning. -/
lemma unicodeHeadLeads (n : Nat) (extra : List Char) :
    unicodeWarningHead.data.isPrefixOf ((unicodeCostWarning n).data ++ extra) = true := by
  have h : (unicodeCostWarning n).data ++ extra =
      unicodeWarningHead.data ++ ((" and uses " ++ toString n ++ " segments").data ++ extra) := by
    simp [unicodeCostWarning, string_data_append, List.append_assoc]
  rw [h]
  exact isPrefixOf_append _ _

/-- The multi-part cost warning is never the empty string. -/
lemma multipartCostWarning_ne_empty (n : Nat) : multipartCostWarning n ≠ "" := by
  intro h
  have hp := multipartHeadLeads n []
  rw [List.append_nil, h] at hp
  exact absurd hp (by decide)

/-- The Unicode cost warning is never the empty string. -/
lemma unicodeCostWarning_ne_empty (n : Nat) : unicodeCostWarning n ≠ "" := by
  intro h
  have hp := unicodeHeadLeads n []
  rw [List.append_nil, h] at hp
  exact absurd hp (by decide)

/-- Neither cost-warning head is a prefix of the URL warning. -/
lemma url_warning_no_cost_head :
    (multipartWarningHead.data.isPrefixOf urlWarningString.data
      || unicodeWarningHead.data.isPrefixOf urlWarningString.data) = false := by decide

/-- `detectUrls` either finds nothing or yields the fixed URL warning. -/
lemma detectUrls_cases (t : String) :
    detectUrls t = none ∨ detectUrls t = some urlWarningString := by
  rw [detectUrls]
  split_ifs <;> simp

/-- `smsSegWarn` below the single-message threshold. -/
lemma smsSegWarn_single (isGsm : Bool) (len : Nat) (h : len ≤ maxSingleLengthFor isGsm) :
    smsSegWarn isGsm len = (1, segmentInfoString 1 isGsm, "") := by
  rw [smsSegWarn, if_pos h]

/-- `smsSegWarn` above the single-message threshold. -/
lemma smsSegWarn_multi (isGsm : Bool) (len : Nat) (h : ¬ len ≤ maxSingleLengthFor isGsm) :
    smsSegWarn isGsm len =
      (jsCeilDiv len (segmentLengthFor isGsm),
       segmentInfoString (jsCeilDiv len (segmentLengthFor isGsm)) isGsm,
       if !isGsm && 2 ≤ jsCeilDiv len (segmentLengthFor isGsm) then
         unicodeCostWarning (jsCeilDiv len (segmentLengthFor isGsm))
       else if 3 ≤ jsCeilDiv len (segmentLengthFor isGsm) then
         multipartCostWarning (jsCeilDiv len (segmentLengthFor isGsm))
       else "") := by
  rw [smsSegWarn, if_neg h]

/-- Above the Unicode single-message threshold the segment count is at
least 2. -/
lemma two_le_ceil_unicode (len : Nat) (h : 70 < len) : 2 ≤ jsCeilDiv len 67 := by
  rw [jsCeilDiv, Nat.le_div_iff_mul_le (by norm_num)]
  omega

/-- `isPrefixOf` persists under extending the larger list. -/
lemma isPrefixOf_append_of : ∀ (a b e : List Char),
    a.isPrefixOf b = true → a.isPrefixOf (b ++ e) = true
  | [], _, _, _ => by simp [List.isPrefixOf]
  | a :: as, [], e, h => by simp [List.isPrefixOf] at h
  | a :: as, b :: bs, e, h => by
    simp only [List.isPrefixOf, List.cons_append, Bool.and_eq_true, beq_iff_eq] at h ⊢
    exact ⟨h.1, isPrefixOf_append_of as bs e h.2⟩

/-- When the segment-cost warning is non-empty and carries a cost-warning
head, the combined warning (with or without a URL warning appended)
still carries it. -/
lemma hasCost_of_combined (i : Option String) (c : String) (url : Option String)
    (hc : (multipartWarningHead.data.isPrefixOf c.data
        || unicodeWarningHead.data.isPrefixOf c.data) = true)
    (hcne : c ≠ "") :
    hasCostWarning
      { isValid := true, error := none, info := i,
        warning := if smsWarningCombined c url = "" then none
                   else some (smsWarningCombined c url) } = true := by
  cases url with
  | none =>
    simp only [smsWarningCombined]
    rw [if_neg hcne]
    exact hc
  | some u =>
    simp only [smsWarningCombined]
    rw [if_pos hcne]
    have hdata : (c ++ "\n" ++ u).data = c.data ++ ("\n".data ++ u.data) := by
      simp [string_data_append, List.append_assoc]
    have hne2 : c ++ "\n" ++ u ≠ "" := by
      intro h
      apply hcne
      have hd := congrArg String.data h
      rw [hdata] at hd
      rcases List.append_eq_nil.mp hd with ⟨h1, _⟩
      exact String.ext h1
    rw [if_neg hne2]
    show (multipartWarningHead.data.isPrefixOf (c ++ "\n" ++ u).data
        || unicodeWarningHead.data.isPrefixOf (c ++ "\n" ++ u).data) = true
    rw [hdata]
    rcases Bool.or_eq_true_iff.mp hc with h | h
    · exact Bool.or_eq_true_iff.mpr (Or.inl (isPrefixOf_append_of _ _ _ h))
    · exact Bool.or_eq_true_iff.mpr (Or.inr (isPrefixOf_append_of _ _ _ h))

/-- When the segment-cost warning is empty, the combined warning (empty
or the bare URL warning) carries no cost-warning head. -/
lemma hasCost_of_combined_empty (i : Option String) (url : Option String)
    (hurl : url = none ∨ url = some urlWarningString) :
    hasCostWarning
      { isValid := true, error := none, info := i,
        warning := if smsWarningCombined "" url = "" then none
                   else some (smsWarningCombined "" url) } = false := by
  rcases hurl with rfl | rfl
  · rfl
  · simp only [smsWarningCombined]
    rw [if_neg (show ¬(("" : String) ≠ "") by simp)]
    rw [if_neg (show urlWarningString ≠ "" by decide)]
    exact url_warning_no_cost_head

/-- C7: for every message body accepted by the emptiness check and within
the hard cap, the computed segment count (reported in the info string)
equals `ceil(length/segmentLength)` when the stripped length exceeds the
single-message threshold and 1 otherwise, and a cost warning is attached
exactly when the segment count is ≥ 3 under GSM encoding or ≥ 2 under
Unicode encoding. -/
theorem validateSmsMessage_segments (s : String)
    (h0 : ¬ (jsTrim s).length = 0)
    (hcap : (stripControlCharacters (jsTrim s)).length ≤
      maxMultipartLengthFor ((stripControlCharacters (jsTrim s)).data.all gsmChar)) :
    (validateSmsMessage s).info =
      some (segmentInfoString (claimedSegments (stripControlCharacters (jsTrim s)))
        ((stripControlCharacters (jsTrim s)).data.all gsmChar)) ∧
    (hasCostWarning (validateSmsMessage s) = true ↔
      ((((stripControlCharacters (jsTrim s)).data.all gsmChar) = true ∧
          3 ≤ claimedSegments (stripControlCharacters (jsTrim s))) ∨
       (((stripControlCharacters (jsTrim s)).data.all gsmChar) = false ∧
          2 ≤ claimedSegments (stripControlCharacters (jsTrim s))))) := by
  set t := stripControlCharacters (jsTrim s) with ht
  have hmain : validateSmsMessage s = validateSmsMessageChecked t := by
    rw [validateSmsMessage, if_neg h0]
  rw [hmain, validateSmsMessageChecked, if_neg (not_lt.mpr hcap)]
  by_cases hsingle : t.length ≤ maxSingleLengthFor (t.data.all gsmChar)
  · have hseg : claimedSegments t = 1 := by rw [claimedSegments, if_pos hsingle]
    rw [smsSegWarn_single _ _ hsingle, hseg]
    dsimp only
    refine ⟨rfl, ?_⟩
    rw [hasCost_of_combined_empty _ _ (detectUrls_cases t)]
    simp
  · have hseg : claimedSegments t =
        jsCeilDiv t.length (segmentLengthFor (t.data.all gsmChar)) := by
      rw [claimedSegments, if_neg hsingle]
    rw [smsSegWarn_multi _ _ hsingle, hseg]
    dsimp only
    refine ⟨rfl, ?_⟩
    cases hgsm : t.data.all gsmChar with
    | true =>
      by_cases h3 : 3 ≤ jsCeilDiv t.length (segmentLengthFor true)
      · rw [if_neg (show ¬((!true
            && decide (2 ≤ jsCeilDiv t.length (segmentLengthFor true))) = true) by simp)]
        rw [if_pos h3]
        rw [hasCost_of_combined _ _ _
          (by
            rw [show (multipartCostWarning (jsCeilDiv t.length (segmentLengthFor true))).data =
                (multipartCostWarning (jsCeilDiv t.length (segmentLengthFor true))).data ++ []
              from (List.append_nil _).symm]
            exact Bool.or_eq_true_iff.mpr (Or.inl (multipartHeadLeads _ _)))
          (multipartCostWarning_ne_empty _)]
        simp [h3]
      · rw [if_neg (show ¬((!true
            && decide (2 ≤ jsCeilDiv t.length (segmentLengthFor true))) = true) by simp)]
        rw [if_neg h3]
        rw [hasCost_of_combined_empty _ _ (detectUrls_cases t)]
        simp [h3]
    | false =>
      have h2 : 2 ≤ jsCeilDiv t.length (segmentLengthFor false) := by
        rw [segmentLengthFor]
        exact two_le_ceil_unicode t.length (by
          simp only [hgsm, maxSingleLengthFor, Bool.false_eq_true, if_false] at hsingle
          omega)
      rw [if_pos (show (!false
          && decide (2 ≤ jsCeilDiv t.length (segmentLengthFor false))) = true by simp [h2])]
      rw [hasCost_of_combined _ _ _
        (by
          rw [show (unicodeCostWarning (jsCeilDiv t.length (segmentLengthFor false))).data =
              (unicodeCostWarning (jsCeilDiv t.length (segmentLengthFor false))).data ++ []
            from (List.append_nil _).symm]
          exact Bool.or_eq_true_iff.mpr (Or.inr (unicodeHeadLeads _ _)))
        (unicodeCostWarning_ne_empty _)]
      simp [h2]

/-- The 500-character message body `"a".repeat(500)` named by the claim. -/
def aFiveHundred : String := String.mk (List.replicate 500 'a')

set_option maxRecDepth 40000 in
/-- C7 witness at the body `'a' * 500`: non-empty, within the cap, GSM
encoding with `ceil(500/153) = 4` segments, and a cost warning attached. -/
theorem validateSmsMessage_segments_witness :
    (¬ (jsTrim aFiveHundred).length = 0) ∧
    claimedSegments (stripControlCharacters (jsTrim aFiveHundred)) = 4 ∧
    hasCostWarning (validateSmsMessage aFiveHundred) = true := by
  have h := validateSmsMessage_segments aFiveHundred (by decide) (by decide)
  exact ⟨by decide, by decide, h.2.mpr (Or.inl ⟨by decide, by decide⟩)⟩

end Elks
